import Mathlib

/-
Verification development for the go-cache repository: a uniform key-value
caching abstraction (in-process, remote, no-op variants) with a pluggable
encoding layer (gob-based binary codec, JSON textual codec).

The Go value universe is shallowly embedded as a mutual inductive family:
a Go `any` value is `Option GoVal` (none = nil interface), destinations
(`obj any` arguments, which the code requires to be pointers) are `GoRef`.
-/

set_option maxHeartbeats 1000000

mutual

/-- GoType mirrors the reflect-level types the repository manipulates:
primitives, pointers, slices, maps, named structs (with their field
types, needed to decode JSON into a struct-shaped destination),
channels and functions. -/
inductive GoType where
  | int : GoType
  | str : GoType
  | bool : GoType
  | ptr (t : GoType) : GoType
  | slice (t : GoType) : GoType
  | mapT (k v : GoType) : GoType
  | structT (name : String) (fields : FieldTypeList) : GoType
  | chanT (t : GoType) : GoType
  | funcT : GoType
  deriving DecidableEq

/-- FieldTypeList is the (ordered) list of named field types of a struct type. -/
inductive FieldTypeList where
  | fnil : FieldTypeList
  | fcons (name : String) (t : GoType) (rest : FieldTypeList) : FieldTypeList
  deriving DecidableEq

end

mutual

/-- GoVal mirrors runtime Go values. Nil-shaped values (nil pointer, nil
slice, nil map, nil chan/func) get their own constructors so that
"present-but-nil" is representable, as the repository requires. -/
inductive GoVal where
  | intV (n : Int) : GoVal
  | strV (s : String) : GoVal
  | boolV (b : Bool) : GoVal
  | structV (name : String) (fields : FieldList) : GoVal
  | sliceV (t : GoType) (xs : ValList) : GoVal
  | sliceNil (t : GoType) : GoVal
  | mapV (kt vt : GoType) (es : EntryList) : GoVal
  | mapNil (kt vt : GoType) : GoVal
  | ptrV (t : GoType) (v : GoVal) : GoVal
  | ptrNil (t : GoType) : GoVal
  | chanV (t : GoType) (nil : Bool) : GoVal
  | funcV (nil : Bool) : GoVal
  deriving DecidableEq

/-- FieldList is the ordered list of named field values of a struct value. -/
inductive FieldList where
  | fnil : FieldList
  | fcons (name : String) (v : GoVal) (rest : FieldList) : FieldList
  deriving DecidableEq

/-- ValList is a list of slice elements. -/
inductive ValList where
  | vnil : ValList
  | vcons (v : GoVal) (rest : ValList) : ValList
  deriving DecidableEq

/-- EntryList is the ordered association list of map entries. -/
inductive EntryList where
  | enil : EntryList
  | econs (k v : GoVal) (rest : EntryList) : EntryList
  deriving DecidableEq

end

mutual

/-- typeOf is reflect.TypeOf on the embedded values. -/
def typeOf : GoVal → GoType
  | .intV _ => .int
  | .strV _ => .str
  | .boolV _ => .bool
  | .structV name fs => .structT name (fieldsTypeOf fs)
  | .sliceV t _ => .slice t
  | .sliceNil t => .slice t
  | .mapV kt vt _ => .mapT kt vt
  | .mapNil kt vt => .mapT kt vt
  | .ptrV t _ => .ptr t
  | .ptrNil t => .ptr t
  | .chanV t _ => .chanT t
  | .funcV _ => .funcT

/-- fieldsTypeOf computes the struct field types of a field-value list. -/
def fieldsTypeOf : FieldList → FieldTypeList
  | .fnil => .fnil
  | .fcons n v rest => .fcons n (typeOf v) (fieldsTypeOf rest)

end

mutual

/-- zeroVal is reflect.Zero: the zero value of a type (nil for the
nilable kinds). -/
def zeroVal : GoType → GoVal
  | .int => .intV 0
  | .str => .strV ""
  | .bool => .boolV false
  | .ptr t => .ptrNil t
  | .slice t => .sliceNil t
  | .mapT kt vt => .mapNil kt vt
  | .structT name fts => .structV name (zeroFields fts)
  | .chanT t => .chanV t true
  | .funcT => .funcV true

/-- zeroFields gives the zero value of each field of a struct type. -/
def zeroFields : FieldTypeList → FieldList
  | .fnil => .fnil
  | .fcons n t rest => .fcons n (zeroVal t) (zeroFields rest)

end

/-- nilable captures the kind test used by both assignValue functions:
a destination of pointer, slice, map, chan or func kind may be zeroed
when the incoming value is nil. (The source also lists Interface;
interface-typed storage locations are outside this embedding.) -/
def nilable : GoType → Bool
  | .ptr _ => true
  | .slice _ => true
  | .mapT _ _ => true
  | .chanT _ => true
  | .funcT => true
  | _ => false

/-- isNilPSM is the nil test of cache_value.Encode and JsonSerializer.Encode:
kind is Ptr, Slice or Map, and the runtime value is nil. Chan and func
kinds are NOT inspected by the source. -/
def isNilPSM : GoVal → Bool
  | .ptrNil _ => true
  | .sliceNil _ => true
  | .mapNil _ _ => true
  | _ => false

/-- goTypeName mirrors reflect.Type.String() closely enough to carry the
type names that the nil markers and JSON envelopes record. -/
def goTypeName : GoType → String
  | .int => "int"
  | .str => "string"
  | .bool => "bool"
  | .ptr t => "*" ++ goTypeName t
  | .slice t => "[]" ++ goTypeName t
  | .mapT k v => "map[" ++ goTypeName k ++ "]" ++ goTypeName v
  | .structT name _ => name
  | .chanT t => "chan " ++ goTypeName t
  | .funcT => "func()"

/-- CErr enumerates the error values the embedded code produces. Each
constructor corresponds to one distinct error message built by the
source (errors.New / fmt.Errorf); callback errors are abstracted by a
numeric code and propagated unchanged. The panicked constructor models
the reflect panics reachable from GetSet when obj is not a usable
pointer (zero reflect.Value dereference). -/
inductive CErr where
  | keyNotExists : CErr
  | objNil : CErr
  | objMustBePointer : CErr
  | objCannotBeSet : CErr
  | cannotAssignNil (t : GoType) : CErr
  | typeMismatch (expected got : GoType) : CErr
  | notImplemented : CErr
  | gobEncodeUnsupported (t : GoType) : CErr
  | jsonEncodeUnsupported (t : GoType) : CErr
  | jsonDecodeError (t : GoType) : CErr
  | callback (code : Nat) : CErr
  | redisNil : CErr
  | panicked : CErr
  deriving DecidableEq

/-- GoAny is a Go interface-typed slot: none is the nil interface. -/
def GoAny : Type := Option GoVal

instance : DecidableEq GoAny := by unfold GoAny; infer_instance

/-- GoRef is what an `obj any` destination argument can be: the nil
interface, a non-pointer value, a nil pointer of some pointee type, or
a settable pointer to a location of type t currently holding a value. -/
inductive GoRef where
  | nilIface : GoRef
  | nonPtr (v : GoVal) : GoRef
  | nilPtr (t : GoType) : GoRef
  | ptrTo (t : GoType) (v : GoVal) : GoRef
  deriving DecidableEq

/-- CacheCallback models the gsr.CacheCallback the caller supplies to
GetSet. It receives the key and the destination and either fails with
an abstract error code or succeeds, returning the value it wrote
through the destination pointer. -/
def CacheCallback : Type := String → GoRef → Except Nat GoVal

/-- MemItem is one entry of the in-process expiring store: a stored
interface value and an absolute expiry instant (none = never expires). -/
structure MemItem where
  value : GoAny
  expiresAt : Option Int
  deriving DecidableEq

/-- MemStore. Modelled from the spec: the underlying in-process expiring
store (patrickmn/go-cache) is an out-of-scope collaborator "treated as
a capability" (put/get/delete with TTL and background eviction); it is
not part of this repository's sources. Its documented TTL convention,
which the spec's design notes restate, is: duration 0 selects the
store's default expiration, a negative duration means never expire, a
positive duration d expires at now + d. -/
structure MemStore where
  defaultExpiration : Int
  items : List (String × MemItem)
  deriving DecidableEq

/-- goStoreSet is the collaborator's Set (see MemStore's note). -/
def goStoreSet (st : MemStore) (now : Int) (key : String) (v : GoAny) (d : Int) : MemStore :=
  let d := if d = 0 then st.defaultExpiration else d
  let e : Option Int := if d > 0 then some (now + d) else none
  { st with items := (key, ⟨v, e⟩) :: st.items.filter (fun p => p.1 ≠ key) }

/-- goStoreGet is the collaborator's Get: found iff the key is present
and not yet expired (an entry with expiry e is still alive at now = e). -/
def goStoreGet (st : MemStore) (now : Int) (key : String) : Option GoAny :=
  match st.items.find? (fun p => p.1 = key) with
  | none => none
  | some (_, it) =>
    match it.expiresAt with
    | none => some it.value
    | some e => if now > e then none else some it.value

/-- goStoreDelete is the collaborator's Delete. -/
def goStoreDelete (st : MemStore) (key : String) : MemStore :=
  { st with items := st.items.filter (fun p => p.1 ≠ key) }

/-- lookupItem retrieves the raw stored item for a key, ignoring expiry
(used to state what Set physically wrote). -/
def MemStore.lookupItem (st : MemStore) (key : String) : Option MemItem :=
  match st.items.find? (fun p => p.1 = key) with
  | none => none
  | some (_, it) => some it

namespace Memory

/-- assignValue embeds Memory.assignValue (src/memory.go): reject a nil
or non-pointer or unsettable obj; a nil incoming value zeroes a nilable
destination and is an error otherwise; a non-nil value must have exactly
the destination's type. -/
def assignValue (obj : GoRef) (value : GoAny) : Except CErr GoRef :=
  match obj with
  | .nilIface => .error .objNil
  | .nonPtr _ => .error .objMustBePointer
  | .nilPtr _ => .error .objCannotBeSet
  | .ptrTo t _ =>
    match value with
    | none =>
      if nilable t then .ok (.ptrTo t (zeroVal t)) else .error (.cannotAssignNil t)
    | some v =>
      if typeOf v = t then .ok (.ptrTo t v) else .error (.typeMismatch t (typeOf v))

/-- existsKey embeds Memory.Exists: a bare found-test on the store. -/
def existsKey (st : MemStore) (now : Int) (key : String) : Bool :=
  (goStoreGet st now key).isSome

/-- Get embeds Memory.Get: store lookup then assignValue. -/
def Get (st : MemStore) (now : Int) (key : String) (obj : GoRef) : Except CErr GoRef :=
  match goStoreGet st now key with
  | none => .error .keyNotExists
  | some val => assignValue obj val

/-- Set embeds Memory.Set: a non-positive ttl is replaced by -1 (the
store's never-expire sentinel) before the store write; never errors. -/
def Set (st : MemStore) (now : Int) (key : String) (value : GoAny) (ttl : Int) : MemStore :=
  goStoreSet st now key value (if ttl ≤ 0 then -1 else ttl)

/-- writeThrough applies the callback's successful write to the
destination: only a settable pointer is actually written through. -/
def writeThrough (obj : GoRef) (nv : GoVal) : GoRef :=
  match obj with
  | .ptrTo t _ => .ptrTo t nv
  | o => o

/-- derefForStore embeds the persist step of GetSet: reflect.ValueOf(obj),
Elem() when the kind is Ptr, then Interface(). Dereferencing a nil
pointer or the nil interface yields a zero reflect.Value whose
Interface() panics; that panic is modelled as the panicked error. -/
def derefForStore (obj : GoRef) : Except CErr GoAny :=
  match obj with
  | .nilIface => .error .panicked
  | .nilPtr _ => .error .panicked
  | .nonPtr v => .ok (some v)
  | .ptrTo _ v => .ok (some v)

/-- GetSetOut packages the outcome of one GetSet call: its returned
error (if any), the resulting store, the final destination contents,
and how many times the callback ran. -/
structure GetSetOut where
  res : Except CErr Unit
  store : MemStore
  obj : GoRef
  cbCalls : Nat

/-- GetSet embeds Memory.GetSet: try Get; on any error invoke the
callback once; on callback success store the dereferenced destination
value with Set. -/
def GetSet (st : MemStore) (now : Int) (key : String) (ttl : Int) (obj : GoRef)
    (cb : CacheCallback) : GetSetOut :=
  match Get st now key obj with
  | .ok obj2 => ⟨.ok (), st, obj2, 0⟩
  | .error _ =>
    match cb key obj with
    | .error e => ⟨.error (.callback e), st, obj, 1⟩
    | .ok nv =>
      let obj2 := writeThrough obj nv
      match derefForStore obj2 with
      | .error e => ⟨.error e, st, obj2, 1⟩
      | .ok av => ⟨.ok (), Set st now key av ttl, obj2, 1⟩

/-- Del embeds Memory.Del; never errors. -/
def Del (st : MemStore) (key : String) : MemStore :=
  goStoreDelete st key

/-- ExpiresAt embeds Memory.ExpiresAt: absent key is keyNotExists; a
strictly past instant deletes the key; otherwise the existing raw value
is re-stored with ttl = expiresAt - now (a ttl of exactly 0 is handed
to the store unchanged, where it selects the default expiration). -/
def ExpiresAt (st : MemStore) (now : Int) (key : String) (instant : Int) :
    Except CErr Unit × MemStore :=
  match goStoreGet st now key with
  | none => (.error .keyNotExists, st)
  | some val =>
    let ttl := instant - now
    if ttl < 0 then (.ok (), goStoreDelete st key)
    else (.ok (), goStoreSet st now key val ttl)

/-- ExpiresIn embeds Memory.ExpiresIn: absent key is keyNotExists;
otherwise the existing raw value is re-stored with the given ttl,
passed to the store with no normalization. -/
def ExpiresIn (st : MemStore) (now : Int) (key : String) (ttl : Int) :
    Except CErr Unit × MemStore :=
  match goStoreGet st now key with
  | none => (.error .keyNotExists, st)
  | some val => (.ok (), goStoreSet st now key val ttl)

end Memory

namespace NoneCache

/-- existsKey embeds None.Exists: always false. -/
def existsKey (_key : String) : Bool := false

/-- Get embeds None.Get: always the fixed not-implemented error. -/
def Get (_key : String) (_obj : GoRef) : Except CErr GoRef :=
  .error .notImplemented

/-- Set embeds None.Set: always succeeds, no effect. -/
def Set (_key : String) (_value : GoAny) (_ttl : Int) : Except CErr Unit :=
  .ok ()

/-- GetSetOut mirrors Memory.GetSetOut for the stateless no-op variant:
returned error, final destination contents, callback invocation count. -/
structure GetSetOut where
  res : Except CErr Unit
  obj : GoRef
  cbCalls : Nat

/-- GetSet embeds None.GetSet: returns the fixed not-implemented error
immediately; the body contains no call to the callback. -/
def GetSet (_key : String) (_ttl : Int) (obj : GoRef) (_cb : CacheCallback) : GetSetOut :=
  ⟨.error .notImplemented, obj, 0⟩

/-- Del embeds None.Del: always succeeds. -/
def Del (_key : String) : Except CErr Unit := .ok ()

/-- ExpiresAt embeds None.ExpiresAt: always succeeds. -/
def ExpiresAt (_key : String) (_instant : Int) : Except CErr Unit := .ok ()

/-- ExpiresIn embeds None.ExpiresIn: always succeeds. -/
def ExpiresIn (_key : String) (_ttl : Int) : Except CErr Unit := .ok ()

end NoneCache

mutual

/-- gobOK approximates which non-nil values the generic gob engine can
encode: channel and function types are unsupported (as the repository
documents), and a nil pointer nested inside a value cannot be encoded
either. Top-level nil pointers/slices/maps never reach the generic
engine (Encode diverts them to the nil marker first). -/
def gobOK : GoVal → Bool
  | .intV _ => true
  | .strV _ => true
  | .boolV _ => true
  | .structV _ fs => gobOKFields fs
  | .sliceV _ xs => gobOKVals xs
  | .sliceNil _ => true
  | .mapV _ _ es => gobOKEntries es
  | .mapNil _ _ => true
  | .ptrV _ v => gobOK v
  | .ptrNil _ => false
  | .chanV _ _ => false
  | .funcV _ => false

/-- gobOKFields lifts gobOK over struct fields. -/
def gobOKFields : FieldList → Bool
  | .fnil => true
  | .fcons _ v rest => gobOK v && gobOKFields rest

/-- gobOKVals lifts gobOK over slice elements. -/
def gobOKVals : ValList → Bool
  | .vnil => true
  | .vcons v rest => gobOK v && gobOKVals rest

/-- gobOKEntries lifts gobOK over map entries. -/
def gobOKEntries : EntryList → Bool
  | .enil => true
  | .econs k v rest => gobOK k && gobOK v && gobOKEntries rest

end

/-- GobWire is the binary codec's wire form, abstracted above the raw
gob byte stream: a nil marker carrying a type name (the nilValueMarker
struct), an encoded nil interface slot, or a self-describing boxed
value that decodes back to its original concrete type. -/
inductive GobWire where
  | nilMarker (typeName : String) : GobWire
  | nilInterface : GobWire
  | boxed (v : GoVal) : GobWire
  deriving DecidableEq

namespace CacheValue

/-- Encode embeds cache_value.Encode: a non-nil interface whose kind is
Ptr, Slice or Map and whose value is nil becomes a nil marker carrying
the type name; otherwise the value is registered and handed to the
generic gob engine (which fails on channel/function types and nested
nil pointers). A nil interface is encodable (gob transmits an empty
concrete-type name). -/
def Encode (value : GoAny) : Except CErr GobWire :=
  match value with
  | none => .ok .nilInterface
  | some v =>
    if isNilPSM v then .ok (.nilMarker (goTypeName (typeOf v)))
    else if gobOK v then .ok (.boxed v)
    else .error (.gobEncodeUnsupported (typeOf v))

/-- assignValue embeds cache_value.assignValue. Decode has already
rejected a nil or non-pointer obj, so only the pointer cases are
reachable; a nil pointer obj has an unsettable element. -/
def assignValue (obj : GoRef) (value : GoAny) : Except CErr GoRef :=
  match obj with
  | .nilPtr _ => .error .objCannotBeSet
  | .ptrTo t _ =>
    match value with
    | none =>
      if nilable t then .ok (.ptrTo t (zeroVal t)) else .error (.cannotAssignNil t)
    | some v =>
      if typeOf v = t then .ok (.ptrTo t v) else .error (.typeMismatch t (typeOf v))
  | _ => .error .objCannotBeSet

/-- Decode embeds cache_value.Decode: reject nil / non-pointer obj,
gob-decode into an interface slot, then route a nil marker (or a nil
interface) to assignValue with nil, and a boxed value to assignValue. -/
def Decode (w : GobWire) (obj : GoRef) : Except CErr GoRef :=
  match obj with
  | .nilIface => .error .objNil
  | .nonPtr _ => .error .objMustBePointer
  | obj =>
    match w with
    | .nilMarker _ => assignValue obj none
    | .nilInterface => assignValue obj none
    | .boxed v => assignValue obj (some v)

end CacheValue

/-- RItem is one entry of the remote store: the serialized value and an
absolute expiry instant (none = no expiry). -/
structure RItem where
  value : GobWire
  expiresAt : Option Int
  deriving DecidableEq

/-- RedisStore. Modelled from the spec: the remote key-value transport
(GET/SET/EXISTS/DEL/EXPIRE/EXPIREAT "with its own error semantics") is
an out-of-scope collaborator; it is modelled as a single authoritative
key-value table with per-key expiry and no transport failures. The
default (gob) serializer's wire values populate it. -/
structure RedisStore where
  items : List (String × RItem)
  deriving DecidableEq

/-- redisGET is the transport's GET: the value if present and alive. -/
def redisGET (st : RedisStore) (now : Int) (key : String) : Option GobWire :=
  match st.items.find? (fun p => p.1 = key) with
  | none => none
  | some (_, it) =>
    match it.expiresAt with
    | none => some it.value
    | some e => if now > e then none else some it.value

/-- redisSET is the transport's SET with ttl (0 = no expiry). -/
def redisSET (st : RedisStore) (now : Int) (key : String) (w : GobWire) (ttl : Int) : RedisStore :=
  let e : Option Int := if ttl > 0 then some (now + ttl) else none
  { st with items := (key, ⟨w, e⟩) :: st.items.filter (fun p => p.1 ≠ key) }

/-- redisDEL is the transport's DEL. -/
def redisDEL (st : RedisStore) (key : String) : RedisStore :=
  { st with items := st.items.filter (fun p => p.1 ≠ key) }

/-- redisEXPIRE is the transport's EXPIRE: on a live key it installs the
new relative ttl (a non-positive ttl deletes the key, as the real
server does) and reports true; on an absent key it does nothing and
reports false. Neither case is a transport error. -/
def redisEXPIRE (st : RedisStore) (now : Int) (key : String) (ttl : Int) : Bool × RedisStore :=
  match redisGET st now key with
  | none => (false, st)
  | some w => if ttl ≤ 0 then (true, redisDEL st key) else (true, redisSET st now key w ttl)

/-- redisEXPIREAT is the transport's EXPIREAT, taking an absolute instant. -/
def redisEXPIREAT (st : RedisStore) (now : Int) (key : String) (instant : Int) : Bool × RedisStore :=
  redisEXPIRE st now key (instant - now)

/-- lookupItem retrieves the raw stored remote item for a key. -/
def RedisStore.lookupItem (st : RedisStore) (key : String) : Option RItem :=
  match st.items.find? (fun p => p.1 = key) with
  | none => none
  | some (_, it) => some it

namespace Redis

/-- existsKey embeds Redis.Exists: the transport's EXISTS on one key. -/
def existsKey (st : RedisStore) (now : Int) (key : String) : Bool :=
  (redisGET st now key).isSome

/-- Get embeds Redis.Get with the default gob serializer: GET (absent
key is the transport's nil-reply error) then Decode into obj. -/
def Get (st : RedisStore) (now : Int) (key : String) (obj : GoRef) : Except CErr GoRef :=
  match redisGET st now key with
  | none => .error .redisNil
  | some w => CacheValue.Decode w obj

/-- Set embeds Redis.Set: serialize first (an encode error aborts), then
SET with a non-positive ttl clamped to 0, the transport's no-expiry
sentinel. -/
def Set (st : RedisStore) (now : Int) (key : String) (value : GoAny) (ttl : Int) :
    Except CErr RedisStore :=
  match CacheValue.Encode value with
  | .error e => .error e
  | .ok w => .ok (redisSET st now key w (if ttl ≤ 0 then 0 else ttl))

/-- GetSetOut packages one Redis.GetSet outcome, as for Memory. -/
structure GetSetOut where
  res : Except CErr Unit
  store : RedisStore
  obj : GoRef
  cbCalls : Nat

/-- GetSet embeds Redis.GetSet: try Get; on any error (nil reply,
decode failure, type mismatch) invoke the callback once; on callback
success store the dereferenced destination value with Set. -/
def GetSet (st : RedisStore) (now : Int) (key : String) (ttl : Int) (obj : GoRef)
    (cb : CacheCallback) : GetSetOut :=
  match Get st now key obj with
  | .ok obj2 => ⟨.ok (), st, obj2, 0⟩
  | .error _ =>
    match cb key obj with
    | .error e => ⟨.error (.callback e), st, obj, 1⟩
    | .ok nv =>
      let obj2 := Memory.writeThrough obj nv
      match Memory.derefForStore obj2 with
      | .error e => ⟨.error e, st, obj2, 1⟩
      | .ok av =>
        match Set st now key av ttl with
        | .error e => ⟨.error e, st, obj2, 1⟩
        | .ok st2 => ⟨.ok (), st2, obj2, 1⟩

/-- Del embeds Redis.Del: the transport's DEL, whose only errors are
transport failures (not modelled); always succeeds here. -/
def Del (st : RedisStore) (key : String) : Except CErr Unit × RedisStore :=
  (.ok (), redisDEL st key)

/-- ExpiresAt embeds Redis.ExpiresAt: delegate to EXPIREAT and return
its command error, which is nil both for present and for absent keys. -/
def ExpiresAt (st : RedisStore) (now : Int) (key : String) (instant : Int) :
    Except CErr Unit × RedisStore :=
  (.ok (), (redisEXPIREAT st now key instant).2)

/-- ExpiresIn embeds Redis.ExpiresIn: delegate to EXPIRE and return its
command error, which is nil both for present and for absent keys. -/
def ExpiresIn (st : RedisStore) (now : Int) (key : String) (ttl : Int) :
    Except CErr Unit × RedisStore :=
  (.ok (), (redisEXPIRE st now key ttl).2)

end Redis

mutual

/-- Json is the generic JSON tree that encoding/json produces and that
the textual codec's envelope carries. Numbers are modelled exactly (the
embedding does not model float64 precision). -/
inductive Json where
  | null : Json
  | num (n : Int) : Json
  | str (s : String) : Json
  | bool (b : Bool) : Json
  | arr (xs : JsonList) : Json
  | obj (o : JsonObj) : Json
  deriving DecidableEq

/-- JsonList is a JSON array's element list. -/
inductive JsonList where
  | jnil : JsonList
  | jcons (j : Json) (rest : JsonList) : JsonList
  deriving DecidableEq

/-- JsonObj is a JSON object's ordered key/value member list. -/
inductive JsonObj where
  | onil : JsonObj
  | ocons (key : String) (j : Json) (rest : JsonObj) : JsonObj
  deriving DecidableEq

end

/-- lookupJson finds the first member with the given key. -/
def lookupJson : JsonObj → String → Option Json
  | .onil, _ => none
  | .ocons n j rest, m => if n = m then some j else lookupJson rest m

mutual

/-- toJson models json.Marshal on a non-nil Go value: pointers are
flattened to their pointee, nil slices/maps/pointers marshal to null,
channel and function values are unsupported. The embedding restricts
JSON map keys to strings (Go's integer-key stringification is outside
the model). -/
def toJson : GoVal → Except CErr Json
  | .intV n => .ok (.num n)
  | .strV s => .ok (.str s)
  | .boolV b => .ok (.bool b)
  | .structV _ fs =>
    match toJsonFields fs with
    | .ok o => .ok (.obj o)
    | .error e => .error e
  | .sliceV _ xs =>
    match toJsonVals xs with
    | .ok l => .ok (.arr l)
    | .error e => .error e
  | .sliceNil _ => .ok .null
  | .mapV kt vt es =>
    if kt = GoType.str then
      match toJsonEntries es with
      | .ok o => .ok (.obj o)
      | .error e => .error e
    else .error (.jsonEncodeUnsupported (.mapT kt vt))
  | .mapNil _ _ => .ok .null
  | .ptrV _ v => toJson v
  | .ptrNil _ => .ok .null
  | .chanV t _ => .error (.jsonEncodeUnsupported (.chanT t))
  | .funcV _ => .error (.jsonEncodeUnsupported .funcT)

/-- toJsonFields marshals struct fields into object members, in order. -/
def toJsonFields : FieldList → Except CErr JsonObj
  | .fnil => .ok .onil
  | .fcons n v rest =>
    match toJson v, toJsonFields rest with
    | .ok j, .ok o => .ok (.ocons n j o)
    | .error e, _ => .error e
    | _, .error e => .error e

/-- toJsonVals marshals slice elements, in order. -/
def toJsonVals : ValList → Except CErr JsonList
  | .vnil => .ok .jnil
  | .vcons v rest =>
    match toJson v, toJsonVals rest with
    | .ok j, .ok l => .ok (.jcons j l)
    | .error e, _ => .error e
    | _, .error e => .error e

/-- toJsonEntries marshals string-keyed map entries into object members. -/
def toJsonEntries : EntryList → Except CErr JsonObj
  | .enil => .ok .onil
  | .econs k v rest =>
    match k with
    | .strV s =>
      match toJson v, toJsonEntries rest with
      | .ok j, .ok o => .ok (.ocons s j o)
      | .error e, _ => .error e
      | _, .error e => .error e
    | k2 => .error (.jsonEncodeUnsupported (typeOf k2))

end

mutual

/-- fromJson models json.Unmarshal of a JSON tree into a freshly zeroed
destination of the given type: null is a no-op (leaving the zero
value), non-null trees must structurally match the destination type,
and a non-null tree decoded at pointer type allocates. -/
def fromJson : GoType → Json → Except CErr GoVal
  | t, .null => .ok (zeroVal t)
  | .int, .num n => .ok (.intV n)
  | .str, .str s => .ok (.strV s)
  | .bool, .bool b => .ok (.boolV b)
  | .ptr t, j =>
    match fromJson t j with
    | .ok v => .ok (.ptrV t v)
    | .error e => .error e
  | .slice t, .arr l =>
    match fromJsonVals t l with
    | .ok xs => .ok (.sliceV t xs)
    | .error e => .error e
  | .mapT kt vt, .obj o =>
    if kt = GoType.str then
      match fromJsonEntries vt o with
      | .ok es => .ok (.mapV kt vt es)
      | .error e => .error e
    else .error (.jsonDecodeError (.mapT kt vt))
  | .structT name fts, .obj o =>
    match fromJsonFields fts o with
    | .ok fs => .ok (.structV name fs)
    | .error e => .error e
  | t, _ => .error (.jsonDecodeError t)
  termination_by t j => (sizeOf t, 0)
  decreasing_by all_goals (simp_wf <;> omega)

/-- fromJsonVals decodes array elements at the slice's element type. -/
def fromJsonVals : GoType → JsonList → Except CErr ValList
  | _, .jnil => .ok .vnil
  | t, .jcons j rest =>
    match fromJson t j, fromJsonVals t rest with
    | .ok v, .ok xs => .ok (.vcons v xs)
    | .error e, _ => .error e
    | _, .error e => .error e
  termination_by t l => (sizeOf t, sizeOf l)
  decreasing_by all_goals (simp_wf <;> omega)

/-- fromJsonEntries decodes object members as string-keyed map entries. -/
def fromJsonEntries : GoType → JsonObj → Except CErr EntryList
  | _, .onil => .ok .enil
  | vt, .ocons s j rest =>
    match fromJson vt j, fromJsonEntries vt rest with
    | .ok v, .ok es => .ok (.econs (.strV s) v es)
    | .error e, _ => .error e
    | _, .error e => .error e
  termination_by vt o => (sizeOf vt, sizeOf o)
  decreasing_by all_goals (simp_wf <;> omega)

/-- fromJsonFields decodes each declared struct field by looking its
name up in the object (an absent member leaves the field zero). -/
def fromJsonFields : FieldTypeList → JsonObj → Except CErr FieldList
  | .fnil, _ => .ok .fnil
  | .fcons n t rest, o =>
    match fromJson t ((lookupJson o n).getD .null), fromJsonFields rest o with
    | .ok v, .ok fs => .ok (.fcons n v fs)
    | .error e, _ => .error e
    | _, .error e => .error e
  termination_by fts o => (sizeOf fts, sizeOf o)
  decreasing_by all_goals (simp_wf <;> omega)

end

/-- JsonEnvelope is the textual codec's wire form, structurally: the
jsonWrapper struct after marshalling. isNil is always emitted;
typeName models the `type_name,omitempty` field (none = omitted, i.e.
the Go string was empty); value models the `value,omitempty` field
(none = omitted, i.e. the wrapped interface was nil). -/
structure JsonEnvelope where
  isNil : Bool
  typeName : Option String
  value : Option Json
  deriving DecidableEq

namespace JsonSerializer

/-- Encode embeds JsonSerializer.Encode: a nil interface or a nil
pointer/slice/map is wrapped with is_nil=true (recording the type name
in the typed case) and no payload; any other value is marshalled into
the value field with is_nil=false and no type name. -/
def Encode (value : GoAny) : Except CErr JsonEnvelope :=
  match value with
  | none => .ok ⟨true, none, none⟩
  | some v =>
    if isNilPSM v then .ok ⟨true, some (goTypeName (typeOf v)), none⟩
    else
      match toJson v with
      | .ok j => .ok ⟨false, none, some j⟩
      | .error e => .error e

/-- Decode embeds JsonSerializer.Decode: reject nil / non-pointer obj;
an is_nil envelope zeroes a nilable destination (or fails); otherwise
the payload is re-marshalled and unmarshalled into the destination (an
absent payload re-marshals to null, a no-op; unmarshalling into a nil
pointer is a json error). -/
def Decode (env : JsonEnvelope) (obj : GoRef) : Except CErr GoRef :=
  match obj with
  | .nilIface => .error .objNil
  | .nonPtr _ => .error .objMustBePointer
  | .nilPtr t =>
    if env.isNil then .error .objCannotBeSet
    else .error (.jsonDecodeError t)
  | .ptrTo t cur =>
    if env.isNil then
      if nilable t then .ok (.ptrTo t (zeroVal t)) else .error (.cannotAssignNil t)
    else
      match env.value with
      | none => .ok (.ptrTo t cur)
      | some j =>
        match fromJson t j with
        | .ok v => .ok (.ptrTo t v)
        | .error e => .error e

end JsonSerializer

/-- fContains tests whether a field-value list declares a name. -/
def fContains : FieldList → String → Bool
  | .fnil, _ => false
  | .fcons n _ rest, m => (n = m) || fContains rest m

/-- ftContains tests whether a field-type list declares a name. -/
def ftContains : FieldTypeList → String → Bool
  | .fnil, _ => false
  | .fcons n _ rest, m => (n = m) || ftContains rest m

/-- nodupFieldNames holds when a struct value's field names are
pairwise distinct (guaranteed by Go's struct declarations). -/
def nodupFieldNames : FieldList → Bool
  | .fnil => true
  | .fcons n _ rest => !(fContains rest n) && nodupFieldNames rest

mutual

/-- wellTyped holds for values whose containers are homogeneous at
their declared element types and whose struct field names are
distinct, as Go's type system guarantees for real runtime values. -/
def wellTyped : GoVal → Bool
  | .intV _ => true
  | .strV _ => true
  | .boolV _ => true
  | .structV _ fs => wtFields fs && nodupFieldNames fs
  | .sliceV t xs => wtVals t xs
  | .sliceNil _ => true
  | .mapV kt vt es => wtEntries kt vt es
  | .mapNil _ _ => true
  | .ptrV t v => (typeOf v == t) && wellTyped v
  | .ptrNil _ => true
  | .chanV _ _ => true
  | .funcV _ => true

/-- wtFields lifts wellTyped over struct fields. -/
def wtFields : FieldList → Bool
  | .fnil => true
  | .fcons _ v rest => wellTyped v && wtFields rest

/-- wtVals holds when every slice element has the declared element type. -/
def wtVals : GoType → ValList → Bool
  | _, .vnil => true
  | t, .vcons v rest => (typeOf v == t) && wellTyped v && wtVals t rest

/-- wtEntries holds when every key and value has its declared map type. -/
def wtEntries : GoType → GoType → EntryList → Bool
  | _, _, .enil => true
  | kt, vt, .econs k v rest =>
    (typeOf k == kt) && wellTyped k && (typeOf v == vt) && wellTyped v && wtEntries kt vt rest

end

mutual

/-- jsonOK holds for values the modelled JSON codec round-trips:
no channel or function values, map keys are strings, and no non-nil
pointer points at a nil-shaped pointee (its null marshal could not be
told apart from a nil pointer on decode, exactly as in Go). -/
def jsonOK : GoVal → Bool
  | .intV _ => true
  | .strV _ => true
  | .boolV _ => true
  | .structV _ fs => jsonOKFields fs
  | .sliceV _ xs => jsonOKVals xs
  | .sliceNil _ => true
  | .mapV kt _ es => (kt == GoType.str) && jsonOKEntries es
  | .mapNil _ _ => true
  | .ptrV _ v => !(isNilPSM v) && jsonOK v
  | .ptrNil _ => true
  | .chanV _ _ => false
  | .funcV _ => false

/-- jsonOKFields lifts jsonOK over struct fields. -/
def jsonOKFields : FieldList → Bool
  | .fnil => true
  | .fcons _ v rest => jsonOK v && jsonOKFields rest

/-- jsonOKVals lifts jsonOK over slice elements. -/
def jsonOKVals : ValList → Bool
  | .vnil => true
  | .vcons v rest => jsonOK v && jsonOKVals rest

/-- jsonOKEntries lifts jsonOK over map entries (keys must be strings). -/
def jsonOKEntries : EntryList → Bool
  | .enil => true
  | .econs k v rest =>
    (match k with | .strV _ => true | _ => false) && jsonOK v && jsonOKEntries rest

end

theorem zeroVal_of_isNilPSM (v : GoVal) (h : isNilPSM v = true) : zeroVal (typeOf v) = v := by
  cases v <;> simp [isNilPSM] at h <;> rfl

theorem nilable_of_isNilPSM (v : GoVal) (h : isNilPSM v = true) : nilable (typeOf v) = true := by
  cases v <;> simp [isNilPSM] at h <;> rfl

theorem lookupJson_head (n : String) (j : Json) (o : JsonObj) :
    lookupJson (.ocons n j o) n = some j := by
  simp [lookupJson]

theorem ftContains_fieldsTypeOf : ∀ (fs : FieldList) (m : String),
    ftContains (fieldsTypeOf fs) m = fContains fs m
  | .fnil, _ => rfl
  | .fcons n v rest, m => by
    simp [fieldsTypeOf, ftContains, fContains, ftContains_fieldsTypeOf rest m]

theorem fromJsonFields_extend : ∀ (fts : FieldTypeList) (n : String) (j : Json) (o : JsonObj),
    ftContains fts n = false →
    fromJsonFields fts (.ocons n j o) = fromJsonFields fts o
  | .fnil, _, _, _, _ => by simp [fromJsonFields]
  | .fcons m t rest, n, j, o, h => by
    simp [ftContains, Bool.or_eq_false_iff] at h
    obtain ⟨hmn, hrest⟩ := h
    have ih := fromJsonFields_extend rest n j o hrest
    simp [fromJsonFields, lookupJson, if_neg (Ne.symm hmn), ih]

theorem fromJson_ptr (t : GoType) (j : Json) (h : j ≠ .null) :
    fromJson (.ptr t) j =
      match fromJson t j with
      | .ok v => .ok (.ptrV t v)
      | .error e => .error e := by
  cases j <;> simp_all [fromJson]

theorem toJson_ne_null : ∀ (v : GoVal), jsonOK v = true → isNilPSM v = false →
    ∀ j, toJson v = .ok j → j ≠ .null
  | .intV _, _, _, j, hj => by simp [toJson] at hj; simp [← hj]
  | .strV _, _, _, j, hj => by simp [toJson] at hj; simp [← hj]
  | .boolV _, _, _, j, hj => by simp [toJson] at hj; simp [← hj]
  | .structV name fs, _, _, j, hj => by
    cases h : toJsonFields fs <;> simp [toJson, h] at hj <;> simp [← hj]
  | .sliceV t xs, _, _, j, hj => by
    cases h : toJsonVals xs <;> simp [toJson, h] at hj <;> simp [← hj]
  | .mapV kt vt es, h2, _, j, hj => by
    simp [jsonOK, Bool.and_eq_true, beq_iff_eq] at h2
    obtain ⟨hk, -⟩ := h2
    subst hk
    cases h : toJsonEntries es <;> simp [toJson, h] at hj <;> simp [← hj]
  | .mapNil _ _, _, h3, _, _ => by simp [isNilPSM] at h3
  | .sliceNil _, _, h3, _, _ => by simp [isNilPSM] at h3
  | .ptrNil _, _, h3, _, _ => by simp [isNilPSM] at h3
  | .ptrV t v, h2, _, j, hj => by
    simp [jsonOK, Bool.and_eq_true, Bool.not_eq_true'] at h2
    have hj' : toJson v = .ok j := by simpa [toJson] using hj
    exact toJson_ne_null v h2.2 h2.1 j hj'
  | .chanV _ _, h2, _, _, _ => by simp [jsonOK] at h2
  | .funcV _, h2, _, _, _ => by simp [jsonOK] at h2

mutual

theorem rtVal : ∀ (v : GoVal), wellTyped v = true → jsonOK v = true →
    ∃ j, toJson v = .ok j ∧ fromJson (typeOf v) j = .ok v
  | .intV n, _, _ => ⟨.num n, by simp [toJson], by simp [typeOf, fromJson]⟩
  | .strV s, _, _ => ⟨.str s, by simp [toJson], by simp [typeOf, fromJson]⟩
  | .boolV b, _, _ => ⟨.bool b, by simp [toJson], by simp [typeOf, fromJson]⟩
  | .structV name fs, h1, h2 => by
    simp [wellTyped, Bool.and_eq_true] at h1
    simp [jsonOK] at h2
    obtain ⟨o, ho1, ho2⟩ := rtFields fs h1.1 h2 h1.2
    exact ⟨.obj o, by simp [toJson, ho1], by simp [typeOf, fromJson, ho2]⟩
  | .sliceV t xs, h1, h2 => by
    simp [wellTyped] at h1
    simp [jsonOK] at h2
    obtain ⟨l, hl1, hl2⟩ := rtVals t xs h1 h2
    exact ⟨.arr l, by simp [toJson, hl1], by simp [typeOf, fromJson, hl2]⟩
  | .sliceNil t, _, _ => ⟨.null, by simp [toJson], by simp [typeOf, fromJson, zeroVal]⟩
  | .mapV kt vt es, h1, h2 => by
    simp [jsonOK, Bool.and_eq_true, beq_iff_eq] at h2
    obtain ⟨hk, h2r⟩ := h2
    subst hk
    simp [wellTyped] at h1
    obtain ⟨o, ho1, ho2⟩ := rtEntries vt es h1 h2r
    exact ⟨.obj o, by simp [toJson, ho1], by simp [typeOf, fromJson, ho2]⟩
  | .mapNil kt vt, _, _ => ⟨.null, by simp [toJson], by simp [typeOf, fromJson, zeroVal]⟩
  | .ptrNil t, _, _ => ⟨.null, by simp [toJson], by simp [typeOf, fromJson, zeroVal]⟩
  | .ptrV t v, h1, h2 => by
    simp [wellTyped, Bool.and_eq_true, beq_iff_eq] at h1
    simp [jsonOK, Bool.and_eq_true, Bool.not_eq_true'] at h2
    obtain ⟨ht, h1v⟩ := h1
    obtain ⟨hnil, h2v⟩ := h2
    obtain ⟨j, hj1, hj2⟩ := rtVal v h1v h2v
    have hne := toJson_ne_null v h2v hnil j hj1
    refine ⟨j, by simp [toJson, hj1], ?_⟩
    subst ht
    simp [typeOf, fromJson_ptr (typeOf v) j hne, hj2]
  | .chanV _ _, _, h2 => by simp [jsonOK] at h2
  | .funcV _, _, h2 => by simp [jsonOK] at h2

theorem rtFields : ∀ (fs : FieldList), wtFields fs = true → jsonOKFields fs = true →
    nodupFieldNames fs = true →
    ∃ o, toJsonFields fs = .ok o ∧ fromJsonFields (fieldsTypeOf fs) o = .ok fs
  | .fnil, _, _, _ => ⟨.onil, by simp [toJsonFields], by simp [fieldsTypeOf, fromJsonFields]⟩
  | .fcons n v rest, h1, h2, h3 => by
    simp [wtFields, Bool.and_eq_true] at h1
    simp [jsonOKFields, Bool.and_eq_true] at h2
    simp [nodupFieldNames, Bool.and_eq_true, Bool.not_eq_true'] at h3
    obtain ⟨j, hj1, hj2⟩ := rtVal v h1.1 h2.1
    obtain ⟨o, ho1, ho2⟩ := rtFields rest h1.2 h2.2 h3.2
    refine ⟨.ocons n j o, by simp [toJsonFields, hj1, ho1], ?_⟩
    have hext := fromJsonFields_extend (fieldsTypeOf rest) n j o
      (by rw [ftContains_fieldsTypeOf]; exact h3.1)
    simp [fieldsTypeOf, fromJsonFields, lookupJson, hj2, hext, ho2]

theorem rtVals : ∀ (t : GoType) (xs : ValList), wtVals t xs = true → jsonOKVals xs = true →
    ∃ l, toJsonVals xs = .ok l ∧ fromJsonVals t l = .ok xs
  | _, .vnil, _, _ => ⟨.jnil, by simp [toJsonVals], by simp [fromJsonVals]⟩
  | t, .vcons v rest, h1, h2 => by
    simp [wtVals, Bool.and_eq_true, beq_iff_eq] at h1
    simp [jsonOKVals, Bool.and_eq_true] at h2
    obtain ⟨⟨ht, h1v⟩, h1r⟩ := h1
    obtain ⟨j, hj1, hj2⟩ := rtVal v h1v h2.1
    obtain ⟨l, hl1, hl2⟩ := rtVals t rest h1r h2.2
    rw [ht] at hj2
    exact ⟨.jcons j l, by simp [toJsonVals, hj1, hl1], by simp [fromJsonVals, hj2, hl2]⟩

theorem rtEntries : ∀ (vt : GoType) (es : EntryList), wtEntries .str vt es = true →
    jsonOKEntries es = true →
    ∃ o, toJsonEntries es = .ok o ∧ fromJsonEntries vt o = .ok es
  | _, .enil, _, _ => ⟨.onil, by simp [toJsonEntries], by simp [fromJsonEntries]⟩
  | vt, .econs k v rest, h1, h2 => by
    simp [jsonOKEntries, Bool.and_eq_true] at h2
    obtain ⟨⟨hk, h2v⟩, h2r⟩ := h2
    cases k with
    | strV s =>
      simp [wtEntries, typeOf, wellTyped, Bool.and_eq_true, beq_iff_eq] at h1
      obtain ⟨⟨hvt, h1v⟩, h1r⟩ := h1
      obtain ⟨j, hj1, hj2⟩ := rtVal v h1v h2v
      obtain ⟨o, ho1, ho2⟩ := rtEntries vt rest h1r h2r
      rw [hvt] at hj2
      exact ⟨.ocons s j o, by simp [toJsonEntries, hj1, ho1],
        by simp [fromJsonEntries, hj2, ho2]⟩
    | intV n => simp at hk
    | boolV b => simp at hk
    | structV name fs => simp at hk
    | sliceV t xs => simp at hk
    | sliceNil t => simp at hk
    | mapV kt vt es => simp at hk
    | mapNil kt vt => simp at hk
    | ptrV t v => simp at hk
    | ptrNil t => simp at hk
    | chanV t b => simp at hk
    | funcV b => simp at hk

end

theorem goStoreGet_memSet_same (st : MemStore) (now : Int) (key : String) (v : GoAny) (ttl : Int) :
    goStoreGet (Memory.Set st now key v ttl) now key = some v := by
  unfold Memory.Set goStoreSet goStoreGet
  by_cases h : ttl ≤ 0
  · simp [h, List.find?]
  · have h1 : ¬ ttl = 0 := by omega
    have h2 : ttl > 0 := by omega
    have h3 : ¬ now > now + ttl := by omega
    simp [h, h1, h2, h3, List.find?]

theorem redisGET_redisSET_same (st : RedisStore) (now : Int) (key : String) (w : GobWire) (ttl : Int) :
    redisGET (redisSET st now key w ttl) now key = some w := by
  unfold redisSET redisGET
  by_cases h : ttl > 0
  · have h3 : ¬ now > now + ttl := by omega
    simp [h, h3, List.find?]
  · simp [h, List.find?]

theorem memory_getset_calls_le_one (st : MemStore) (now : Int) (key : String) (ttl : Int)
    (obj : GoRef) (cb : CacheCallback) :
    (Memory.GetSet st now key ttl obj cb).cbCalls ≤ 1 := by
  cases hg : Memory.Get st now key obj with
  | ok o => simp [Memory.GetSet, hg]
  | error e =>
    cases hc : cb key obj with
    | error ec => simp [Memory.GetSet, hg, hc]
    | ok nv =>
      cases hd : Memory.derefForStore (Memory.writeThrough obj nv) with
      | error ed => simp [Memory.GetSet, hg, hc, hd]
      | ok av => simp [Memory.GetSet, hg, hc, hd]

theorem redis_getset_calls_le_one (st : RedisStore) (now : Int) (key : String) (ttl : Int)
    (obj : GoRef) (cb : CacheCallback) :
    (Redis.GetSet st now key ttl obj cb).cbCalls ≤ 1 := by
  cases hg : Redis.Get st now key obj with
  | ok o => simp [Redis.GetSet, hg]
  | error e =>
    cases hc : cb key obj with
    | error ec => simp [Redis.GetSet, hg, hc]
    | ok nv =>
      cases hd : Memory.derefForStore (Memory.writeThrough obj nv) with
      | error ed => simp [Redis.GetSet, hg, hc, hd]
      | ok av =>
        cases hs : Redis.Set st now key av ttl with
        | error es => simp [Redis.GetSet, hg, hc, hd, hs]
        | ok st2 => simp [Redis.GetSet, hg, hc, hd, hs]

theorem memory_getset_miss (st : MemStore) (now : Int) (key : String) (ttl : Int)
    (t : GoType) (v0 v : GoVal) (cb : CacheCallback) (e : CErr)
    (hmiss : Memory.Get st now key (.ptrTo t v0) = .error e)
    (hcb : cb key (.ptrTo t v0) = .ok v) :
    Memory.GetSet st now key ttl (.ptrTo t v0) cb
      = ⟨.ok (), Memory.Set st now key (some v) ttl, .ptrTo t v, 1⟩ := by
  simp [Memory.GetSet, hmiss, hcb, Memory.writeThrough, Memory.derefForStore]

theorem memory_getset_hit (st : MemStore) (now : Int) (key : String) (ttl : Int)
    (obj obj2 : GoRef) (cb : CacheCallback)
    (hhit : Memory.Get st now key obj = .ok obj2) :
    Memory.GetSet st now key ttl obj cb = ⟨.ok (), st, obj2, 0⟩ := by
  simp [Memory.GetSet, hhit]

theorem redis_getset_hit (st : RedisStore) (now : Int) (key : String) (ttl : Int)
    (obj obj2 : GoRef) (cb : CacheCallback)
    (hhit : Redis.Get st now key obj = .ok obj2) :
    Redis.GetSet st now key ttl obj cb = ⟨.ok (), st, obj2, 0⟩ := by
  simp [Redis.GetSet, hhit]

theorem memory_get_after_set (st : MemStore) (now : Int) (key : String) (ttl : Int)
    (t : GoType) (v w0 : GoVal) (ht : typeOf v = t) :
    Memory.Get (Memory.Set st now key (some v) ttl) now key (.ptrTo t w0)
      = .ok (.ptrTo t v) := by
  simp [Memory.Get, goStoreGet_memSet_same, Memory.assignValue, ht]

theorem redis_getset_miss (st : RedisStore) (now : Int) (key : String) (ttl : Int)
    (t : GoType) (v0 v : GoVal) (cb : CacheCallback) (e : CErr) (w : GobWire)
    (hmiss : Redis.Get st now key (.ptrTo t v0) = .error e)
    (hcb : cb key (.ptrTo t v0) = .ok v)
    (henc : CacheValue.Encode (some v) = .ok w) :
    Redis.GetSet st now key ttl (.ptrTo t v0) cb
      = ⟨.ok (), redisSET st now key w (if ttl ≤ 0 then 0 else ttl), .ptrTo t v, 1⟩ := by
  simp [Redis.GetSet, hmiss, hcb, Memory.writeThrough, Memory.derefForStore, Redis.Set, henc]

theorem redis_get_after_encode_set (st : RedisStore) (now : Int) (key : String) (ttl : Int)
    (t : GoType) (v w0 : GoVal) (w : GobWire)
    (ht : typeOf v = t) (henc : CacheValue.Encode (some v) = .ok w) :
    Redis.Get (redisSET st now key w ttl) now key (.ptrTo t w0) = .ok (.ptrTo t v) := by
  subst ht
  cases hnil : isNilPSM v with
  | true =>
    simp [CacheValue.Encode, hnil] at henc
    rw [← henc]
    simp [Redis.Get, redisGET_redisSET_same, CacheValue.Decode, CacheValue.assignValue,
      nilable_of_isNilPSM v hnil, zeroVal_of_isNilPSM v hnil]
  | false =>
    cases hok : gobOK v with
    | true =>
      simp [CacheValue.Encode, hnil, hok] at henc
      rw [← henc]
      simp [Redis.Get, redisGET_redisSET_same, CacheValue.Decode, CacheValue.assignValue]
    | false => simp [CacheValue.Encode, hnil, hok] at henc

/-- cbConst7 is a concrete callback writing the int 7, used by witnesses. -/
def cbConst7 : CacheCallback := fun _ _ => .ok (.intV 7)

/-- cbFail9 is a concrete always-failing callback, used by witnesses. -/
def cbFail9 : CacheCallback := fun _ _ => .error 9

/-- C1: for the in-process, remote and no-op variants alike one GetSet
call invokes the callback at most once, and never when the initial
lookup hits (the destination then already holds the cached value); the
no-op variant's GetSet returns the fixed notImplemented error with zero
callback invocations; and after a first GetSet miss has stored a value,
an immediately following GetSet on the same key invokes its callback
zero times and writes the previously stored value into its destination. -/
theorem C1_getset_callback_at_most_once :
    (∀ st now key ttl obj cb, (Memory.GetSet st now key ttl obj cb).cbCalls ≤ 1) ∧
    (∀ st now key ttl obj cb, (Redis.GetSet st now key ttl obj cb).cbCalls ≤ 1) ∧
    (∀ st now key ttl obj obj2 cb, Memory.Get st now key obj = .ok obj2 →
      Memory.GetSet st now key ttl obj cb = ⟨.ok (), st, obj2, 0⟩) ∧
    (∀ st now key ttl obj obj2 cb, Redis.Get st now key obj = .ok obj2 →
      Redis.GetSet st now key ttl obj cb = ⟨.ok (), st, obj2, 0⟩) ∧
    (∀ key ttl obj cb, NoneCache.GetSet key ttl obj cb
      = ⟨.error .notImplemented, obj, 0⟩) ∧
    (∀ st now key ttl ttl2 t v0 w0 v cb cb2 e,
      Memory.Get st now key (.ptrTo t v0) = .error e →
      cb key (.ptrTo t v0) = .ok v →
      typeOf v = t →
      (Memory.GetSet st now key ttl (.ptrTo t v0) cb).cbCalls = 1 ∧
      Memory.GetSet (Memory.GetSet st now key ttl (.ptrTo t v0) cb).store now key ttl2
          (.ptrTo t w0) cb2
        = ⟨.ok (), (Memory.GetSet st now key ttl (.ptrTo t v0) cb).store,
            .ptrTo t v, 0⟩) := by
  refine ⟨fun st now key ttl obj cb => memory_getset_calls_le_one st now key ttl obj cb,
    fun st now key ttl obj cb => redis_getset_calls_le_one st now key ttl obj cb,
    fun st now key ttl obj obj2 cb h => memory_getset_hit st now key ttl obj obj2 cb h,
    fun st now key ttl obj obj2 cb h => redis_getset_hit st now key ttl obj obj2 cb h,
    fun _ _ _ _ => rfl, ?_⟩
  intro st now key ttl ttl2 t v0 w0 v cb cb2 e hmiss hcb ht
  have h1 := memory_getset_miss st now key ttl t v0 v cb e hmiss hcb
  have h2 := memory_get_after_set st now key ttl t v w0 ht
  constructor
  · rw [h1]
  · rw [h1]
    exact memory_getset_hit _ now key ttl2 _ _ cb2 h2

theorem C1_witness :
    Memory.Get ⟨0, []⟩ 0 "k" (.ptrTo .int (.intV 0)) = .error .keyNotExists ∧
    cbConst7 "k" (.ptrTo .int (.intV 0)) = .ok (.intV 7) ∧
    typeOf (.intV 7) = .int ∧
    ((Memory.GetSet ⟨0, []⟩ 0 "k" 60 (.ptrTo .int (.intV 0)) cbConst7).cbCalls = 1 ∧
      Memory.GetSet (Memory.GetSet ⟨0, []⟩ 0 "k" 60 (.ptrTo .int (.intV 0)) cbConst7).store 0
          "k" 60 (.ptrTo .int (.intV 0)) cbFail9
        = ⟨.ok (), (Memory.GetSet ⟨0, []⟩ 0 "k" 60 (.ptrTo .int (.intV 0)) cbConst7).store,
            .ptrTo .int (.intV 7), 0⟩) :=
  ⟨rfl, rfl, rfl,
    C1_getset_callback_at_most_once.2.2.2.2.2 ⟨0, []⟩ 0 "k" 60 60 .int (.intV 0) (.intV 0)
      (.intV 7) cbConst7 cbFail9 .keyNotExists rfl rfl rfl⟩

/-- gobEncodeDecode composes the binary codec's Encode with Decode into
a destination of (possibly different) type u. -/
def gobEncodeDecode (v : GoVal) (u : GoType) (w0 : GoVal) : Except CErr GoRef :=
  match CacheValue.Encode (some v) with
  | .ok w => CacheValue.Decode w (.ptrTo u w0)
  | .error e => .error e

/-- jsonEncodeDecode composes the textual codec's Encode with Decode
into a destination of (possibly different) type u. -/
def jsonEncodeDecode (v : GoVal) (u : GoType) (w0 : GoVal) : Except CErr GoRef :=
  match JsonSerializer.Encode (some v) with
  | .ok env => JsonSerializer.Decode env (.ptrTo u w0)
  | .error e => .error e

/-- C2: for every supported value shape and for both the binary (gob)
codec and the textual (JSON) codec, decoding the encoding into a
destination of the value's own type succeeds and reproduces the value
(for a nil-shaped value, the zeroed destination is exactly that nil
value of the matching type). -/
theorem C2_codec_roundtrip (v w0 : GoVal) (hwt : wellTyped v = true) :
    ((isNilPSM v || gobOK v) = true →
      gobEncodeDecode v (typeOf v) w0 = .ok (.ptrTo (typeOf v) v)) ∧
    ((isNilPSM v || jsonOK v) = true →
      jsonEncodeDecode v (typeOf v) w0 = .ok (.ptrTo (typeOf v) v)) := by
  constructor
  · intro h
    cases hnil : isNilPSM v with
    | true =>
      simp [gobEncodeDecode, CacheValue.Encode, hnil, CacheValue.Decode,
        CacheValue.assignValue, nilable_of_isNilPSM v hnil, zeroVal_of_isNilPSM v hnil]
    | false =>
      simp [hnil] at h
      simp [gobEncodeDecode, CacheValue.Encode, hnil, h, CacheValue.Decode,
        CacheValue.assignValue]
  · intro h
    cases hnil : isNilPSM v with
    | true =>
      simp [jsonEncodeDecode, JsonSerializer.Encode, hnil, JsonSerializer.Decode,
        nilable_of_isNilPSM v hnil, zeroVal_of_isNilPSM v hnil]
    | false =>
      simp [hnil] at h
      obtain ⟨j, hj1, hj2⟩ := rtVal v hwt h
      simp [jsonEncodeDecode, JsonSerializer.Encode, hnil, hj1, JsonSerializer.Decode, hj2]

/-- wUser is a concrete struct value used by witnesses. -/
def wUser : GoVal :=
  .structV "main.User" (.fcons "ID" (.intV 1) (.fcons "Name" (.strV "go") .fnil))

theorem C2_witness :
    wellTyped wUser = true ∧
    (isNilPSM wUser || gobOK wUser) = true ∧
    (isNilPSM wUser || jsonOK wUser) = true ∧
    gobEncodeDecode wUser (typeOf wUser) (.intV 0) = .ok (.ptrTo (typeOf wUser) wUser) ∧
    jsonEncodeDecode wUser (typeOf wUser) (.intV 0) = .ok (.ptrTo (typeOf wUser) wUser) := by
  have hwt : wellTyped wUser = true := by
    simp [wUser, wellTyped, wtFields, nodupFieldNames, fContains]
  have hg : (isNilPSM wUser || gobOK wUser) = true := by
    simp [wUser, isNilPSM, gobOK, gobOKFields]
  have hj : (isNilPSM wUser || jsonOK wUser) = true := by
    simp [wUser, isNilPSM, jsonOK, jsonOKFields]
  exact ⟨hwt, hg, hj, (C2_codec_roundtrip wUser (.intV 0) hwt).1 hg,
    (C2_codec_roundtrip wUser (.intV 0) hwt).2 hj⟩

theorem ptrV_ne_self (t : GoType) (v : GoVal) : GoVal.ptrV t v ≠ v := by
  intro h
  have hs := congrArg sizeOf h
  simp at hs

theorem lookupItem_memSet (st : MemStore) (now : Int) (key : String) (v : GoAny) (ttl : Int) :
    (Memory.Set st now key v ttl).lookupItem key
      = some ⟨v, if ttl ≤ 0 then none else some (now + ttl)⟩ := by
  unfold Memory.Set goStoreSet MemStore.lookupItem
  by_cases h : ttl ≤ 0
  · simp [h, List.find?]
  · have h1 : ¬ ttl = 0 := by omega
    have h2 : ttl > 0 := by omega
    simp [h, h1, h2, List.find?]

theorem lookupItem_redisSET (st : RedisStore) (now : Int) (key : String) (w : GobWire) (ttl : Int) :
    (redisSET st now key w ttl).lookupItem key
      = some ⟨w, if ttl > 0 then some (now + ttl) else none⟩ := by
  unfold redisSET RedisStore.lookupItem
  by_cases h : ttl > 0 <;> simp [h, List.find?]

/-- C3: after a successful GetSet callback the in-process variant
stores the pointee value obtained by dereferencing the destination
pointer (not a pointer to it), and the remote variant stores the
serialization of that pointee, so any further GetSet with the same
destination type hits with zero callback calls instead of failing with
a pointer-versus-value type mismatch. -/
theorem C3_store_by_pointee :
    (∀ st now key ttl t v0 v cb e,
      Memory.Get st now key (.ptrTo t v0) = .error e →
      cb key (.ptrTo t v0) = .ok v →
      typeOf v = t →
      (((Memory.GetSet st now key ttl (.ptrTo t v0) cb).store.lookupItem key).map MemItem.value
          = some (some v) ∧
        ((Memory.GetSet st now key ttl (.ptrTo t v0) cb).store.lookupItem key).map MemItem.value
          ≠ some (some (.ptrV t v)) ∧
        ∀ ttl2 w0 cb2,
          Memory.GetSet (Memory.GetSet st now key ttl (.ptrTo t v0) cb).store now key ttl2
              (.ptrTo t w0) cb2
            = ⟨.ok (), (Memory.GetSet st now key ttl (.ptrTo t v0) cb).store,
                .ptrTo t v, 0⟩)) ∧
    (∀ st now key ttl t v0 v cb e w,
      Redis.Get st now key (.ptrTo t v0) = .error e →
      cb key (.ptrTo t v0) = .ok v →
      typeOf v = t →
      CacheValue.Encode (some v) = .ok w →
      (((Redis.GetSet st now key ttl (.ptrTo t v0) cb).store.lookupItem key).map RItem.value
          = some w ∧
        ∀ ttl2 w0 cb2,
          Redis.GetSet (Redis.GetSet st now key ttl (.ptrTo t v0) cb).store now key ttl2
              (.ptrTo t w0) cb2
            = ⟨.ok (), (Redis.GetSet st now key ttl (.ptrTo t v0) cb).store,
                .ptrTo t v, 0⟩)) := by
  constructor
  · intro st now key ttl t v0 v cb e hmiss hcb ht
    have h1 := memory_getset_miss st now key ttl t v0 v cb e hmiss hcb
    have hval : ((Memory.GetSet st now key ttl (.ptrTo t v0) cb).store.lookupItem key).map
        MemItem.value = some (some v) := by
      rw [h1]
      simp [lookupItem_memSet]
    refine ⟨hval, ?_, ?_⟩
    · rw [hval]
      simp
      exact fun h => ptrV_ne_self t v h.symm
    · intro ttl2 w0 cb2
      rw [h1]
      exact memory_getset_hit _ now key ttl2 _ _ cb2
        (memory_get_after_set st now key ttl t v w0 ht)
  · intro st now key ttl t v0 v cb e w hmiss hcb ht henc
    have h1 := redis_getset_miss st now key ttl t v0 v cb e w hmiss hcb henc
    refine ⟨?_, ?_⟩
    · rw [h1]
      simp [lookupItem_redisSET]
    · intro ttl2 w0 cb2
      rw [h1]
      exact redis_getset_hit _ now key ttl2 _ _ cb2
        (redis_get_after_encode_set _ now key _ t v w0 w ht henc)

theorem C3_witness :
    Memory.Get ⟨0, []⟩ 0 "k" (.ptrTo .int (.intV 0)) = .error .keyNotExists ∧
    cbConst7 "k" (.ptrTo .int (.intV 0)) = .ok (.intV 7) ∧
    typeOf (.intV 7) = .int ∧
    Redis.Get ⟨[]⟩ 0 "k" (.ptrTo .int (.intV 0)) = .error .redisNil ∧
    CacheValue.Encode (some (.intV 7)) = .ok (.boxed (.intV 7)) ∧
    (((Memory.GetSet ⟨0, []⟩ 0 "k" 60 (.ptrTo .int (.intV 0)) cbConst7).store.lookupItem
        "k").map MemItem.value = some (some (.intV 7)) ∧
      ((Memory.GetSet ⟨0, []⟩ 0 "k" 60 (.ptrTo .int (.intV 0)) cbConst7).store.lookupItem
        "k").map MemItem.value ≠ some (some (.ptrV .int (.intV 7))) ∧
      ∀ ttl2 w0 cb2,
        Memory.GetSet (Memory.GetSet ⟨0, []⟩ 0 "k" 60 (.ptrTo .int (.intV 0))
            cbConst7).store 0 "k" ttl2 (.ptrTo .int w0) cb2
          = ⟨.ok (), (Memory.GetSet ⟨0, []⟩ 0 "k" 60 (.ptrTo .int (.intV 0)) cbConst7).store,
              .ptrTo .int (.intV 7), 0⟩) ∧
    (((Redis.GetSet ⟨[]⟩ 0 "k" 60 (.ptrTo .int (.intV 0)) cbConst7).store.lookupItem
        "k").map RItem.value = some (.boxed (.intV 7)) ∧
      ∀ ttl2 w0 cb2,
        Redis.GetSet (Redis.GetSet ⟨[]⟩ 0 "k" 60 (.ptrTo .int (.intV 0)) cbConst7).store 0
            "k" ttl2 (.ptrTo .int w0) cb2
          = ⟨.ok (), (Redis.GetSet ⟨[]⟩ 0 "k" 60 (.ptrTo .int (.intV 0)) cbConst7).store,
              .ptrTo .int (.intV 7), 0⟩) := by
  have henc : CacheValue.Encode (some (.intV 7)) = .ok (.boxed (.intV 7)) := by
    simp [CacheValue.Encode, isNilPSM, gobOK]
  refine ⟨rfl, rfl, rfl, rfl, henc, ?_, ?_⟩
  · exact C3_store_by_pointee.1 ⟨0, []⟩ 0 "k" 60 .int (.intV 0) (.intV 7) cbConst7
      .keyNotExists rfl rfl rfl
  · exact C3_store_by_pointee.2 ⟨[]⟩ 0 "k" 60 .int (.intV 0) (.intV 7) cbConst7
      .redisNil (.boxed (.intV 7)) rfl rfl rfl henc

/-- C4 counterexample: encode a nil *main.User (concrete type *main.User)
and decode into a destination of the different type []int: the binary
codec's nil-marker path zeroes the nilable destination and returns no
error at all, instead of the TypeMismatch the claim requires; the
textual codec does the same cross-type nil coercion. -/
theorem C4_counterexample :
    typeOf (.ptrNil (.structT "main.User" .fnil)) ≠ GoType.slice .int ∧
    gobEncodeDecode (.ptrNil (.structT "main.User" .fnil)) (.slice .int) (.sliceV .int .vnil)
      = .ok (.ptrTo (.slice .int) (.sliceNil .int)) ∧
    jsonEncodeDecode (.sliceNil .int) (.mapT .str .int) (.mapV .str .int .enil)
      = .ok (.ptrTo (.mapT .str .int) (.mapNil .str .int)) := by
  refine ⟨by simp [typeOf], ?_, ?_⟩
  · simp [gobEncodeDecode, CacheValue.Encode, isNilPSM, CacheValue.Decode,
      CacheValue.assignValue, nilable, zeroVal]
  · simp [jsonEncodeDecode, JsonSerializer.Encode, isNilPSM, JsonSerializer.Decode,
      nilable, zeroVal]

/-- C4 (amended): for the binary codec, a non-nil-shaped gob-encodable
value of type T decoded into a destination of a different type U fails
with TypeMismatch{expected U, got T}; a nil-shaped value instead zeroes
any nilable destination regardless of its type (no error and no type
check), and fails with the nil-assignment error on a non-nilable
destination. -/
theorem C4_type_mismatch_amended :
    (∀ v u w0, isNilPSM v = false → gobOK v = true → u ≠ typeOf v →
      gobEncodeDecode v u w0 = .error (.typeMismatch u (typeOf v))) ∧
    (∀ v u w0, isNilPSM v = true → nilable u = true →
      gobEncodeDecode v u w0 = .ok (.ptrTo u (zeroVal u))) ∧
    (∀ v u w0, isNilPSM v = true → nilable u = false →
      gobEncodeDecode v u w0 = .error (.cannotAssignNil u)) := by
  refine ⟨?_, ?_, ?_⟩
  · intro v u w0 hnil hok hne
    simp [gobEncodeDecode, CacheValue.Encode, hnil, hok, CacheValue.Decode,
      CacheValue.assignValue, Ne.symm hne]
  · intro v u w0 hnil hn
    simp [gobEncodeDecode, CacheValue.Encode, hnil, CacheValue.Decode,
      CacheValue.assignValue, hn]
  · intro v u w0 hnil hn
    simp [gobEncodeDecode, CacheValue.Encode, hnil, CacheValue.Decode,
      CacheValue.assignValue, hn]

theorem C4_witness :
    isNilPSM (.strV "x") = false ∧ gobOK (.strV "x") = true ∧
    GoType.int ≠ typeOf (.strV "x") ∧
    gobEncodeDecode (.strV "x") .int (.intV 0)
      = .error (.typeMismatch .int (typeOf (.strV "x"))) := by
  have h1 : isNilPSM (.strV "x") = false := rfl
  have h2 : gobOK (.strV "x") = true := by simp [gobOK]
  have h3 : GoType.int ≠ typeOf (.strV "x") := by simp [typeOf]
  exact ⟨h1, h2, h3, C4_type_mismatch_amended.1 (.strV "x") .int (.intV 0) h1 h2 h3⟩

/-- C5: after Set(k, v, ttl) with v a nil-shaped value, Exists(k) is
true and Get(k, p) with p a pointer of v's type returns no error and
sets the destination to that nil value, while Get on an absent key
returns the key-not-exists error. -/
theorem C5_nil_vs_absent (st : MemStore) (now : Int) (key key2 : String) (ttl : Int)
    (t : GoType) (v w0 : GoVal) (hnil : isNilPSM v = true) (ht : typeOf v = t) :
    Memory.existsKey (Memory.Set st now key (some v) ttl) now key = true ∧
    Memory.Get (Memory.Set st now key (some v) ttl) now key (.ptrTo t w0)
      = .ok (.ptrTo t v) ∧
    (goStoreGet (Memory.Set st now key (some v) ttl) now key2 = none →
      Memory.Get (Memory.Set st now key (some v) ttl) now key2 (.ptrTo t w0)
        = .error .keyNotExists) := by
  refine ⟨?_, memory_get_after_set st now key ttl t v w0 ht, ?_⟩
  · simp [Memory.existsKey, goStoreGet_memSet_same]
  · intro habs
    simp [Memory.Get, habs]

theorem C5_witness :
    isNilPSM (.ptrNil (.structT "main.User" .fnil)) = true ∧
    typeOf (.ptrNil (.structT "main.User" .fnil)) = .ptr (.structT "main.User" .fnil) ∧
    goStoreGet (Memory.Set ⟨0, []⟩ 0 "u:1"
      (some (.ptrNil (.structT "main.User" .fnil))) 600) 0 "nope" = none ∧
    Memory.existsKey (Memory.Set ⟨0, []⟩ 0 "u:1"
      (some (.ptrNil (.structT "main.User" .fnil))) 600) 0 "u:1" = true ∧
    Memory.Get (Memory.Set ⟨0, []⟩ 0 "u:1"
        (some (.ptrNil (.structT "main.User" .fnil))) 600) 0 "u:1"
        (.ptrTo (.ptr (.structT "main.User" .fnil)) (.ptrNil (.structT "main.User" .fnil)))
      = .ok (.ptrTo (.ptr (.structT "main.User" .fnil))
          (.ptrNil (.structT "main.User" .fnil))) ∧
    Memory.Get (Memory.Set ⟨0, []⟩ 0 "u:1"
        (some (.ptrNil (.structT "main.User" .fnil))) 600) 0 "nope"
        (.ptrTo (.ptr (.structT "main.User" .fnil)) (.ptrNil (.structT "main.User" .fnil)))
      = .error .keyNotExists := by
  have h := C5_nil_vs_absent ⟨0, []⟩ 0 "u:1" "nope" 600
    (.ptr (.structT "main.User" .fnil)) (.ptrNil (.structT "main.User" .fnil))
    (.ptrNil (.structT "main.User" .fnil)) rfl rfl
  exact ⟨rfl, rfl, rfl, h.1, h.2.1, h.2.2 rfl⟩

/-- C6 counterexample: a nil channel value does not get a nil marker;
it falls through to the generic gob engine, which rejects channel
types, so Encode errors instead of emitting the marker the claim
requires for nil channels (and likewise for nil functions). -/
theorem C6_counterexample :
    CacheValue.Encode (some (.chanV .int true)) = .error (.gobEncodeUnsupported (.chanT .int)) ∧
    CacheValue.Encode (some (.funcV true)) = .error (.gobEncodeUnsupported .funcT) := by
  constructor <;> simp [CacheValue.Encode, isNilPSM, gobOK, typeOf]

/-- C6 (amended): the binary codec's Encode emits a nil marker carrying
the value's type name exactly for nil values of pointer, slice or map
kind; nil channel and nil function values are not inspected and reach
the generic gob engine, which fails on them. -/
theorem C6_nil_marker_amended (v : GoVal) (h : isNilPSM v = true) :
    CacheValue.Encode (some v) = .ok (.nilMarker (goTypeName (typeOf v))) := by
  simp [CacheValue.Encode, h]

theorem C6_witness :
    isNilPSM (.ptrNil (.structT "main.User" .fnil)) = true ∧
    CacheValue.Encode (some (.ptrNil (.structT "main.User" .fnil)))
      = .ok (.nilMarker (goTypeName (.ptr (.structT "main.User" .fnil)))) :=
  ⟨rfl, C6_nil_marker_amended (.ptrNil (.structT "main.User" .fnil)) rfl⟩

/-- C7 counterexample: with store default expiration 300, Memory.Set
with ttl = 0 hands the store -1 (never expire), producing an entry
with no expiry; storing with the store's default-expiration sentinel
instead would produce an entry expiring at now + 300, and the two
differ — so ttl ≤ 0 is NOT normalized to the default expiration. -/
theorem C7_counterexample :
    (Memory.Set ⟨300, []⟩ 0 "k" (some (.intV 7)) 0).lookupItem "k"
      = some ⟨some (.intV 7), none⟩ ∧
    (goStoreSet ⟨300, []⟩ 0 "k" (some (.intV 7)) 0).lookupItem "k"
      = some ⟨some (.intV 7), some 300⟩ ∧
    (Memory.Set ⟨300, []⟩ 0 "k" (some (.intV 7)) 0).lookupItem "k"
      ≠ (goStoreSet ⟨300, []⟩ 0 "k" (some (.intV 7)) 0).lookupItem "k" := by
  have h1 : (Memory.Set ⟨300, []⟩ 0 "k" (some (.intV 7)) 0).lookupItem "k"
      = some ⟨some (.intV 7), none⟩ := rfl
  have h2 : (goStoreSet ⟨300, []⟩ 0 "k" (some (.intV 7)) 0).lookupItem "k"
      = some ⟨some (.intV 7), some 300⟩ := rfl
  refine ⟨h1, h2, ?_⟩
  rw [h1, h2]
  simp

/-- C7 (amended): Memory.Set with ttl ≤ 0 normalizes the TTL to -1, the
underlying store's never-expire sentinel — not to the default
expiration — so the entry never expires and in particular is never
already expired: it is still retrievable at every later instant. -/
theorem C7_ttl_normalization_amended (st : MemStore) (now : Int) (key : String)
    (v : GoAny) (ttl : Int) (h : ttl ≤ 0) :
    (Memory.Set st now key v ttl).lookupItem key = some ⟨v, none⟩ ∧
    (∀ now2, goStoreGet (Memory.Set st now key v ttl) now2 key = some v) := by
  constructor
  · rw [lookupItem_memSet]
    simp [h]
  · intro now2
    unfold Memory.Set goStoreSet goStoreGet
    simp [h, List.find?]

theorem C7_witness :
    (0 : Int) ≤ 0 ∧
    (Memory.Set ⟨300, []⟩ 0 "k" (some (.intV 7)) 0).lookupItem "k"
      = some ⟨some (.intV 7), none⟩ ∧
    (∀ now2, goStoreGet (Memory.Set ⟨300, []⟩ 0 "k" (some (.intV 7)) 0) now2 "k"
      = some (some (.intV 7))) :=
  ⟨le_refl 0,
    (C7_ttl_normalization_amended ⟨300, []⟩ 0 "k" (some (.intV 7)) 0 (le_refl 0)).1,
    (C7_ttl_normalization_amended ⟨300, []⟩ 0 "k" (some (.intV 7)) 0 (le_refl 0)).2⟩

/-- C8 counterexample: the remote variant's ExpiresIn/ExpiresAt on an
absent key return no error at all (the transport's EXPIRE/EXPIREAT
report "key not found" through their boolean reply, which the code
ignores), contradicting the claimed KeyNotFound error. -/
theorem C8_counterexample :
    Redis.ExpiresIn ⟨[]⟩ 0 "k" 10 = (.ok (), (⟨[]⟩ : RedisStore)) ∧
    Redis.ExpiresAt ⟨[]⟩ 0 "k" 99 = (.ok (), (⟨[]⟩ : RedisStore)) := ⟨rfl, rfl⟩

/-- C8 (amended): on an absent key the in-process variant's
ExpiresAt/ExpiresIn return the key-not-exists error and leave the
store unchanged (the key is not created); the remote variant delegates
to EXPIRE/EXPIREAT, which succeed with no error on an absent key and
also do not create it. -/
theorem C8_expiry_absent_key_amended :
    (∀ st now key instant, goStoreGet st now key = none →
      Memory.ExpiresAt st now key instant = (.error .keyNotExists, st)) ∧
    (∀ st now key ttl, goStoreGet st now key = none →
      Memory.ExpiresIn st now key ttl = (.error .keyNotExists, st)) ∧
    (∀ st now key instant, redisGET st now key = none →
      Redis.ExpiresAt st now key instant = (.ok (), st)) ∧
    (∀ st now key ttl, redisGET st now key = none →
      Redis.ExpiresIn st now key ttl = (.ok (), st)) := by
  refine ⟨?_, ?_, ?_, ?_⟩ <;> intro st now key x h <;>
    simp [Memory.ExpiresAt, Memory.ExpiresIn, Redis.ExpiresAt, Redis.ExpiresIn,
      redisEXPIREAT, redisEXPIRE, h]

theorem C8_witness :
    goStoreGet ⟨0, []⟩ 0 "k" = none ∧ redisGET ⟨[]⟩ 0 "k" = none ∧
    Memory.ExpiresAt ⟨0, []⟩ 0 "k" 50 = (.error .keyNotExists, (⟨0, []⟩ : MemStore)) ∧
    Memory.ExpiresIn ⟨0, []⟩ 0 "k" 50 = (.error .keyNotExists, (⟨0, []⟩ : MemStore)) ∧
    Redis.ExpiresAt ⟨[]⟩ 0 "k" 50 = (.ok (), (⟨[]⟩ : RedisStore)) ∧
    Redis.ExpiresIn ⟨[]⟩ 0 "k" 50 = (.ok (), (⟨[]⟩ : RedisStore)) :=
  ⟨rfl, rfl,
    C8_expiry_absent_key_amended.1 ⟨0, []⟩ 0 "k" 50 rfl,
    C8_expiry_absent_key_amended.2.1 ⟨0, []⟩ 0 "k" 50 rfl,
    C8_expiry_absent_key_amended.2.2.1 ⟨[]⟩ 0 "k" 50 rfl,
    C8_expiry_absent_key_amended.2.2.2 ⟨[]⟩ 0 "k" 50 rfl⟩

/-- C9 counterexample: encoding a nil *main.User emits an envelope
whose type_name member is present (carrying the type name), so the
wire form is not the claimed two-field envelope without a type-name
tag. -/
theorem C9_counterexample :
    JsonSerializer.Encode (some (.ptrNil (.structT "main.User" .fnil)))
      = .ok ⟨true, some (goTypeName (.ptr (.structT "main.User" .fnil))), none⟩ ∧
    (some (goTypeName (.ptr (.structT "main.User" .fnil))) : Option String) ≠ none := by
  exact ⟨rfl, by simp⟩

/-- C9 (amended): the textual codec's envelope always carries is_nil;
the value member is present exactly when is_nil is false (holding the
marshalled payload) and the type_name member is present exactly for
typed nil pointer/slice/map inputs, where it records the value's type
name. -/
theorem C9_envelope_amended :
    (JsonSerializer.Encode none = .ok ⟨true, none, none⟩) ∧
    (∀ v, isNilPSM v = true →
      JsonSerializer.Encode (some v) = .ok ⟨true, some (goTypeName (typeOf v)), none⟩) ∧
    (∀ v j, isNilPSM v = false → toJson v = .ok j →
      JsonSerializer.Encode (some v) = .ok ⟨false, none, some j⟩) := by
  refine ⟨rfl, ?_, ?_⟩
  · intro v h
    simp [JsonSerializer.Encode, h]
  · intro v j h hj
    simp [JsonSerializer.Encode, h, hj]

theorem C9_witness :
    isNilPSM (.sliceNil .int) = true ∧ isNilPSM (.intV 3) = false ∧
    toJson (.intV 3) = .ok (.num 3) ∧
    JsonSerializer.Encode (some (.sliceNil .int))
      = .ok ⟨true, some (goTypeName (typeOf (.sliceNil .int))), none⟩ ∧
    JsonSerializer.Encode (some (.intV 3)) = .ok ⟨false, none, some (.num 3)⟩ := by
  have ht : toJson (.intV 3) = .ok (.num 3) := by simp [toJson]
  exact ⟨rfl, rfl, ht, C9_envelope_amended.2.1 (.sliceNil .int) rfl,
    C9_envelope_amended.2.2 (.intV 3) (.num 3) rfl ht⟩

/-- C10: both stateful variants treat every error from the initial Get
as a miss — key absence, type mismatch against an existing entry of a
different type, or (remote) a nil reply or decode failure — invoking
the callback exactly once, and a successful callback overwrites
whatever was previously stored under the key with the new value. -/
theorem C10_any_get_error_is_miss :
    (∀ st now key ttl obj cb e, Memory.Get st now key obj = .error e →
      (Memory.GetSet st now key ttl obj cb).cbCalls = 1) ∧
    (∀ st now key ttl t v0 v cb e,
      Memory.Get st now key (.ptrTo t v0) = .error e →
      cb key (.ptrTo t v0) = .ok v →
      Memory.GetSet st now key ttl (.ptrTo t v0) cb
        = ⟨.ok (), Memory.Set st now key (some v) ttl, .ptrTo t v, 1⟩ ∧
      ((Memory.Set st now key (some v) ttl).lookupItem key).map MemItem.value
        = some (some v)) ∧
    (∀ st now key ttl obj cb e, Redis.Get st now key obj = .error e →
      (Redis.GetSet st now key ttl obj cb).cbCalls = 1) ∧
    (∀ st now key ttl t v0 v cb e w,
      Redis.Get st now key (.ptrTo t v0) = .error e →
      cb key (.ptrTo t v0) = .ok v →
      CacheValue.Encode (some v) = .ok w →
      Redis.GetSet st now key ttl (.ptrTo t v0) cb
        = ⟨.ok (), redisSET st now key w (if ttl ≤ 0 then 0 else ttl), .ptrTo t v, 1⟩ ∧
      ((redisSET st now key w (if ttl ≤ 0 then 0 else ttl)).lookupItem key).map RItem.value
        = some w) := by
  refine ⟨?_, ?_, ?_, ?_⟩
  · intro st now key ttl obj cb e h
    cases hc : cb key obj with
    | error ec => simp [Memory.GetSet, h, hc]
    | ok nv =>
      cases hd : Memory.derefForStore (Memory.writeThrough obj nv) with
      | error ed => simp [Memory.GetSet, h, hc, hd]
      | ok av => simp [Memory.GetSet, h, hc, hd]
  · intro st now key ttl t v0 v cb e hmiss hcb
    refine ⟨memory_getset_miss st now key ttl t v0 v cb e hmiss hcb, ?_⟩
    simp [lookupItem_memSet]
  · intro st now key ttl obj cb e h
    cases hc : cb key obj with
    | error ec => simp [Redis.GetSet, h, hc]
    | ok nv =>
      cases hd : Memory.derefForStore (Memory.writeThrough obj nv) with
      | error ed => simp [Redis.GetSet, h, hc, hd]
      | ok av =>
        cases hs : Redis.Set st now key av ttl with
        | error es => simp [Redis.GetSet, h, hc, hd, hs]
        | ok st2 => simp [Redis.GetSet, h, hc, hd, hs]
  · intro st now key ttl t v0 v cb e w hmiss hcb henc
    refine ⟨redis_getset_miss st now key ttl t v0 v cb e w hmiss hcb henc, ?_⟩
    simp [lookupItem_redisSET]

theorem C10_witness :
    Memory.Get ⟨0, [("k", ⟨some (.strV "x"), none⟩)]⟩ 0 "k" (.ptrTo .int (.intV 0))
      = .error (.typeMismatch .int .str) ∧
    Redis.Get ⟨[("k", ⟨.boxed (.strV "x"), none⟩)]⟩ 0 "k" (.ptrTo .int (.intV 0))
      = .error (.typeMismatch .int .str) ∧
    cbConst7 "k" (.ptrTo .int (.intV 0)) = .ok (.intV 7) ∧
    CacheValue.Encode (some (.intV 7)) = .ok (.boxed (.intV 7)) ∧
    (Memory.GetSet ⟨0, [("k", ⟨some (.strV "x"), none⟩)]⟩ 0 "k" 60 (.ptrTo .int (.intV 0))
      cbConst7).cbCalls = 1 ∧
    (Memory.GetSet ⟨0, [("k", ⟨some (.strV "x"), none⟩)]⟩ 0 "k" 60 (.ptrTo .int (.intV 0))
        cbConst7
      = ⟨.ok (), Memory.Set ⟨0, [("k", ⟨some (.strV "x"), none⟩)]⟩ 0 "k" (some (.intV 7)) 60,
          .ptrTo .int (.intV 7), 1⟩ ∧
      ((Memory.Set ⟨0, [("k", ⟨some (.strV "x"), none⟩)]⟩ 0 "k"
        (some (.intV 7)) 60).lookupItem "k").map MemItem.value = some (some (.intV 7))) ∧
    (Redis.GetSet ⟨[("k", ⟨.boxed (.strV "x"), none⟩)]⟩ 0 "k" 60 (.ptrTo .int (.intV 0))
      cbConst7).cbCalls = 1 ∧
    (Redis.GetSet ⟨[("k", ⟨.boxed (.strV "x"), none⟩)]⟩ 0 "k" 60 (.ptrTo .int (.intV 0))
        cbConst7
      = ⟨.ok (), redisSET ⟨[("k", ⟨.boxed (.strV "x"), none⟩)]⟩ 0 "k" (.boxed (.intV 7))
          (if (60 : Int) ≤ 0 then 0 else 60), .ptrTo .int (.intV 7), 1⟩ ∧
      ((redisSET ⟨[("k", ⟨.boxed (.strV "x"), none⟩)]⟩ 0 "k" (.boxed (.intV 7))
        (if (60 : Int) ≤ 0 then 0 else 60)).lookupItem "k").map RItem.value
        = some (.boxed (.intV 7))) := by
  have henc : CacheValue.Encode (some (.intV 7)) = .ok (.boxed (.intV 7)) := by
    simp [CacheValue.Encode, isNilPSM, gobOK]
  refine ⟨rfl, rfl, rfl, henc, ?_, ?_, ?_, ?_⟩
  · exact C10_any_get_error_is_miss.1 ⟨0, [("k", ⟨some (.strV "x"), none⟩)]⟩ 0 "k" 60
      (.ptrTo .int (.intV 0)) cbConst7 (.typeMismatch .int .str) rfl
  · exact C10_any_get_error_is_miss.2.1 ⟨0, [("k", ⟨some (.strV "x"), none⟩)]⟩ 0 "k" 60
      .int (.intV 0) (.intV 7) cbConst7 (.typeMismatch .int .str) rfl rfl
  · exact C10_any_get_error_is_miss.2.2.1 ⟨[("k", ⟨.boxed (.strV "x"), none⟩)]⟩ 0 "k" 60
      (.ptrTo .int (.intV 0)) cbConst7 (.typeMismatch .int .str) rfl
  · exact C10_any_get_error_is_miss.2.2.2 ⟨[("k", ⟨.boxed (.strV "x"), none⟩)]⟩ 0 "k" 60
      .int (.intV 0) (.intV 7) cbConst7 (.typeMismatch .int .str) (.boxed (.intV 7))
      rfl rfl henc
